import Mathlib

/-!
Verification of the PlaybookWiz repository against its natural-language
specification.

The development shallowly embeds the parts of the repository that the claims
depend on:

* the Postgres schema `backend/create_chat_sessions_table.sql` — the
  `documents` and `chat_sessions` tables, the CHECK constraint on
  `documents.status`, and the row-level-security policies;
* the frontend upload components — the `FileUpload` dropzone configuration and
  `formatFileSize` helper (`src/unnamed/part_006`) and the `UploadPage` file
  handlers (`frontend/src/app/upload/page.tsx`);
* the "Intelligence Engine" pipeline (DocumentProcessor, TextChunker,
  VectorDatabase, AIResponseGenerator).  The engine's source is not present in
  the repository — only its usage contracts appear in `docs/API.md` and
  `docs/DEVELOPMENT.md` — so those components are modelled from the spec, as
  marked on each definition.

Machine arithmetic notes: Postgres UUIDs are modelled as `Nat` identifiers;
JavaScript's `Math.log`-based size bucketing is modelled with the exact
integer logarithm (the claim under scrutiny is about index bounds, which the
exact model captures); embeddings are integer vectors and confidences are
rationals.
-/

namespace PlaybookWiz

/-! ## The Postgres schema (`backend/create_chat_sessions_table.sql`) -/

/-- A row of the `documents` table, restricted to the columns the claims
mention.  `user_id` (a UUID referencing `auth.users`) is modelled as `Nat`;
`status` has no NOT NULL constraint in the schema, so it is an
`Option String` (`none` is SQL NULL). -/
structure DocumentRow where
  user_id : Nat
  filename : String
  content_type : String
  size_bytes : Nat
  status : Option String
  deriving Repr, DecidableEq

/-- The value list of the CHECK constraint on `documents.status`:
`CHECK (status IN ('pending', 'processing', 'processed', 'failed'))`. -/
def statusAllowed (s : String) : Bool :=
  s = "pending" || s = "processing" || s = "processed" || s = "failed"

/-- SQL CHECK-constraint semantics on the nullable `status` column: a CHECK
constraint only rejects a row when its expression evaluates to false, and
`NULL IN (...)` evaluates to NULL, so a NULL status passes the constraint. -/
def statusCheckPasses : Option String → Bool
  | none => true
  | some s => statusAllowed s

/-- The predicate asserted by the claim under scrutiny: the row's status is
equal to one of the four allowed strings (NULL is not one of them). -/
def statusIsOneOfFour : Option String → Bool
  | none => false
  | some s => statusAllowed s

/-- A row of the `chat_sessions` table, restricted to the columns the claims
mention. -/
structure ChatSessionRow where
  user_id : Nat
  session_id : Nat
  message : String
  response : String
  confidence : ℚ
  sources_count : Nat
  deriving Repr, DecidableEq

/-- Statement-level operations on the `documents` table.  Postgres rejects an
INSERT or UPDATE whose resulting row violates the CHECK constraint; the
rejected statement leaves the table unchanged. -/
inductive DocOp where
  | ins (r : DocumentRow)
  | setStatus (p : DocumentRow → Bool) (s : Option String)

/-- Apply one `documents` statement, enforcing the CHECK constraint (with
SQL's NULL-passes semantics). -/
def applyDocOp (t : List DocumentRow) : DocOp → List DocumentRow
  | .ins r => if statusCheckPasses r.status then t ++ [r] else t
  | .setStatus p s =>
      if statusCheckPasses s then
        t.map fun r => if p r then { r with status := s } else r
      else t

/-- The `documents` table reached from empty by a sequence of statements. -/
def docTable (ops : List DocOp) : List DocumentRow :=
  ops.foldl applyDocOp []

/-! ### Row-level security

Both tables enable RLS with the four policies
`FOR SELECT USING (auth.uid() = user_id)`,
`FOR INSERT WITH CHECK (auth.uid() = user_id)`,
`FOR UPDATE USING (auth.uid() = user_id)` and
`FOR DELETE USING (auth.uid() = user_id)`.
The operations below are generic in the row type; `userId` extracts the
`user_id` column.  For UPDATE, Postgres applies the USING expression to the
rows being updated and — since no WITH CHECK is declared — also to the new
row versions; a statement whose new rows fail the check is rejected whole. -/

/-- RLS-filtered SELECT: only rows with `auth.uid() = user_id` are visible. -/
def rlsSelect (userId : α → Nat) (uid : Nat) (t : List α) : List α :=
  t.filter fun r => userId r == uid

/-- RLS-checked INSERT: `none` when the WITH CHECK clause rejects the row. -/
def rlsInsert (userId : α → Nat) (uid : Nat) (t : List α) (r : α) :
    Option (List α) :=
  if userId r == uid then some (t ++ [r]) else none

/-- RLS-restricted UPDATE: only rows passing USING are updated, and the new
row versions must also pass (`none` when the statement is rejected). -/
def rlsUpdate (userId : α → Nat) (uid : Nat) (t : List α)
    (p : α → Bool) (f : α → α) : Option (List α) :=
  if (t.filter fun r => userId r == uid && p r).all
      (fun r => userId (f r) == uid) then
    some (t.map fun r => if userId r == uid && p r then f r else r)
  else none

/-- RLS-restricted DELETE: only rows passing USING can be removed. -/
def rlsDelete (userId : α → Nat) (uid : Nat) (t : List α) (p : α → Bool) :
    List α :=
  t.filter fun r => !(userId r == uid && p r)

/-! ## Frontend upload components -/

/-- A file offered for upload: the fields the browser exposes that the upload
code inspects (`File.name`, `File.type`, `File.size`). -/
structure UFile where
  name : String
  mime : String
  size : Nat
  deriving Repr, DecidableEq

/-- JavaScript's suffix test on file names (`name.endsWith(ext)`), computed
on the character list of the string. -/
def strEndsWith (s suf : String) : Bool :=
  suf.data.isSuffixOf s.data

/-- The MIME-type keys of the `accept` map passed to `useDropzone` in the
`FileUpload` component (`src/unnamed/part_006`, lines 36-46). -/
def acceptMimes : List String :=
  ["application/pdf",
   "application/vnd.openxmlformats-officedocument.presentationml.presentation",
   "application/vnd.ms-powerpoint"]

/-- The extension values of the same `accept` map (also the `accept`
attribute of the `UploadPage` file input, `.pdf,.ppt,.pptx`). -/
def acceptExts : List String := [".pdf", ".pptx", ".ppt"]

/-- The `maxSize` option of the same `useDropzone` call:
`100 * 1024 * 1024` (100MB). -/
def maxSizeCfg : Nat := 100 * 1024 * 1024

/-- The `maxFiles` option of the same `useDropzone` call: 5. -/
def maxFilesCfg : Nat := 5

/-- Format matcher of the `FileUpload` dropzone.  `react-dropzone` flattens
the `accept` map and (per its `attr-accept` matcher) matches a file when its
MIME type equals one of the keys OR its name ends with one of the listed
extensions. -/
def dropzoneFormatMatch (f : UFile) : Bool :=
  acceptMimes.any (fun m => f.mime == m)
    || acceptExts.any (fun e => strEndsWith f.name e)

/-- Acceptance test of the `FileUpload` dropzone for a file arriving in a
drop of `batchSize` files while the component's `disabled` flag (bound to
`isUploading`) is as given: all the gates configured in the `useDropzone`
call must pass — the dropzone enabled, the drop within `maxFiles`, the
format matched, and the size within `maxSize`. -/
def dropzoneAccepts (disabled : Bool) (batchSize : Nat) (f : UFile) : Bool :=
  !disabled && decide (batchSize ≤ maxFilesCfg) && dropzoneFormatMatch f
    && decide (f.size ≤ maxSizeCfg)

/-- The format predicate asserted by the specification: extension `.pdf`,
`.ppt` or `.pptx` together with the corresponding MIME type. -/
def claimedPdfPptFormat (f : UFile) : Bool :=
  (strEndsWith f.name ".pdf" && f.mime == "application/pdf")
    || (strEndsWith f.name ".pptx"
        && f.mime ==
          "application/vnd.openxmlformats-officedocument.presentationml.presentation")
    || (strEndsWith f.name ".ppt" && f.mime == "application/vnd.ms-powerpoint")

/-- The function `UploadPage.handleDrop` (`frontend/src/app/upload/page.tsx`): the drop
handler stores `Array.from(e.dataTransfer.files)` as the selected files with
no format validation. -/
def uploadPageHandleDrop (dropped : List UFile) : List UFile :=
  dropped

/-- The function `UploadPage.handleUpload` (`upload/page.tsx`): it bails out
when the selection is empty, when no OpenAI/Claude API key is configured in
local storage, or when there is no Supabase session; otherwise it uploads
every selected file — no format filter is applied anywhere on the path. -/
def uploadPageHandleUpload (hasApiKey hasSession : Bool)
    (files : List UFile) : List UFile :=
  if files.isEmpty then []
  else if !hasApiKey then []
  else if !hasSession then []
  else files

/-! ### `formatFileSize` (`src/unnamed/part_006`, lines 59-65)

```js
if (bytes === 0) return '0 Bytes';
const k = 1024;
const sizes = ['Bytes', 'KB', 'MB', 'GB'];
const i = Math.floor(Math.log(bytes) / Math.log(k));
return parseFloat((bytes / Math.pow(k, i)).toFixed(2)) + ' ' + sizes[i];
```

`Math.floor(Math.log(bytes) / Math.log(1024))` is modelled by the exact
base-1024 integer logarithm (computed by structural recursion on a fuel
argument so that it evaluates in the kernel).  The out-of-bounds array read
`sizes[i]` (JavaScript `undefined`) is modelled as `none`; the 2-decimal
`toFixed` rounding of the displayed value is kept exact in `ℚ`. -/

/-- The `sizes` array of `formatFileSize`. -/
def sizes : List String := ["Bytes", "KB", "MB", "GB"]

/-- Base-1024 integer logarithm, fuelled. -/
def sizeIndexAux : Nat → Nat → Nat
  | 0, _ => 0
  | fuel + 1, n => if n < 1024 then 0 else sizeIndexAux fuel (n / 1024) + 1

/-- The index `Math.floor(Math.log(bytes) / Math.log(1024))` under exact arithmetic. -/
def sizeIndex (bytes : Nat) : Nat :=
  sizeIndexAux bytes bytes

/-- Result of `formatFileSize`: the displayed value and its unit. -/
structure FormattedSize where
  value : ℚ
  unit : String
  deriving Repr, DecidableEq

/-- The function `formatFileSize`, with the out-of-bounds `sizes[i]` access surfaced as
`none`. -/
def formatFileSize (bytes : Nat) : Option FormattedSize :=
  if bytes = 0 then some ⟨0, "Bytes"⟩
  else
    (sizes.get? (sizeIndex bytes)).map
      fun u => ⟨(bytes : ℚ) / (1024 : ℚ) ^ sizeIndex bytes, u⟩

/-! ## The Intelligence Engine (modelled from the spec)

The engine's source (DocumentProcessor, TextChunker, VectorDatabase,
AIResponseGenerator) is not in the repository; only its usage contracts
appear in `docs/API.md` and `docs/DEVELOPMENT.md`.  Each definition below is
therefore modelled from the spec, faithful to its words. -/

/-- An uploaded document: an identifier and the text of each page/slide. -/
structure SourceDoc where
  docId : Nat
  pages : List String
  deriving Repr, DecidableEq

/-- An extracted passage attributed to a document and a page/slide index. -/
structure Passage where
  docId : Nat
  page : Nat
  text : String
  deriving Repr, DecidableEq

/-- Helper for `processDocument`: pair each page text with its index. -/
def extractPages (docId : Nat) : Nat → List String → List Passage
  | _, [] => []
  | i, t :: ts => ⟨docId, i, t⟩ :: extractPages docId (i + 1) ts

/-- Modelled from the spec: `DocumentProcessor` "extracts raw text and
page/slide boundaries from uploaded PDF/PPTX files" — every page of the
document becomes a passage carrying the originating document id and page
index, for later source attribution. -/
def processDocument (d : SourceDoc) : List Passage :=
  extractPages d.docId 0 d.pages

/-- A chunk: a bounded segment of the token stream, remembering the token
position at which it starts. -/
structure Chunk where
  start : Nat
  toks : List String
  deriving Repr, DecidableEq

/-- Sliding-window chunker: emit the window of `size` tokens at `start` and
advance by `stride`; the fuel bounds the recursion and is instantiated with
the token count. -/
def chunkAux (toks : List String) (size stride : Nat) :
    Nat → Nat → List Chunk
  | 0, _ => []
  | fuel + 1, start =>
      if start < toks.length then
        ⟨start, (toks.drop start).take size⟩
          :: chunkAux toks size stride fuel (start + stride)
      else []

/-- Modelled from the spec: `TextChunker` "splits extracted text into
token-bounded, overlapping segments for embedding" — windows of at most
`size` tokens taken every `size - overlap` tokens. -/
def chunkText (toks : List String) (size overlap : Nat) : List Chunk :=
  chunkAux toks size (size - overlap) toks.length 0

/-- A chunk embedding: a numeric vector used for similarity search.
Modelled with integer coordinates. -/
def Embedding : Type := List ℤ

/-- Dot-product similarity between two embeddings. -/
def dot : List ℤ → List ℤ → ℤ
  | x :: xs, y :: ys => x * y + dot xs ys
  | _, _ => 0

/-- A chunk stored in the vector database together with its embedding and
its source attribution. -/
structure StoredChunk where
  docId : Nat
  page : Nat
  chunk : Chunk
  emb : List ℤ
  deriving Repr, DecidableEq

/-- Modelled from the spec: `VectorDatabase` "stores chunk embeddings and
performs nearest-neighbor retrieval given a query embedding" — the stored
chunks sorted by descending similarity to the query, truncated to `k`. -/
def similaritySearch (store : List StoredChunk) (q : List ℤ) (k : Nat) :
    List StoredChunk :=
  (List.insertionSort (fun a b => dot q b.emb ≤ dot q a.emb) store).take k

/-- Modelled from the spec: the answer object returned by
`AIResponseGenerator` — "an answer, a confidence estimate, and the source
chunks used". -/
structure AIAnswer where
  answer : String
  confidence : ℚ
  sources : List StoredChunk
  deriving Repr, DecidableEq

/-- A hosted LLM endpoint, abstracted as a function from a prompt to an
answer text and a confidence estimate. -/
def LLM : Type := String → String × ℚ

/-- The prompt composition shown in `docs/DEVELOPMENT.md`
(`AIService.answer_question`): `f"Context: {context}\n\nQuestion: {question}"`
with the retrieved chunks as context. -/
def composePrompt (question : String) (retrieved : List StoredChunk) :
    String :=
  "Context: "
    ++ String.intercalate " "
        (retrieved.map fun s => String.intercalate " " s.chunk.toks)
    ++ "\n\nQuestion: " ++ question

/-- Modelled from the spec: `AIResponseGenerator` "composes a prompt from
top-k retrieved chunks and forwards it to a hosted LLM, returning an answer,
a confidence estimate, and the source chunks used." -/
def generateAnswer (llm : LLM) (question : String)
    (retrieved : List StoredChunk) : AIAnswer :=
  let r := llm (composePrompt question retrieved)
  ⟨r.1, r.2, retrieved⟩

/-- The API response of `POST /api/v1/questions/ask` (`docs/API.md`): the
question, the answer, the numeric confidence, and the source chunks. -/
structure ApiAnswer where
  question : String
  answer : String
  confidence : ℚ
  sources : List StoredChunk
  deriving Repr, DecidableEq

/-- Pipeline configuration: the hosted LLM, the embedding model, and the
chunker parameters. -/
structure PipelineCfg where
  llm : LLM
  embed : String → List ℤ
  chunkSize : Nat
  chunkOverlap : Nat
  topK : Nat

/-- Modelled from the spec: the query half of the control flow — embed the
question, run the similarity search, compose the answer, and build the API
response with sources and confidence. -/
def askQuestion (cfg : PipelineCfg) (store : List StoredChunk)
    (question : String) : ApiAnswer :=
  let retrieved := similaritySearch store (cfg.embed question) cfg.topK
  let a := generateAnswer cfg.llm question retrieved
  ⟨question, a.answer, a.confidence, a.sources⟩

/-- Tokenisation used before chunking: whitespace splitting. -/
def tokenize (text : String) : List String :=
  text.splitOn " "

/-- Modelled from the spec: the ingestion half of the control flow — upload →
DocumentProcessor → TextChunker → embedding, producing the chunks inserted
into the vector store. -/
def ingest (cfg : PipelineCfg) (d : SourceDoc) : List StoredChunk :=
  (processDocument d).flatMap fun p =>
    (chunkText (tokenize p.text) cfg.chunkSize cfg.chunkOverlap).map fun c =>
      ⟨p.docId, p.page, c, cfg.embed (String.intercalate " " c.toks)⟩

/-- An externally observable pipeline event: a document upload or a query. -/
inductive PipelineEvent where
  | upload (d : SourceDoc)
  | query (q : String)

/-- The chunks inserted into the vector store by the uploads of a trace. -/
def insertedChunks (cfg : PipelineCfg) (evts : List PipelineEvent) :
    List StoredChunk :=
  evts.flatMap fun e =>
    match e with
    | .upload d => ingest cfg d
    | .query _ => []

/-- Run the pipeline over a trace of events from a given store, collecting
the API responses in order; uploads extend the store, queries read it. -/
def runAux (cfg : PipelineCfg) :
    List StoredChunk → List PipelineEvent → List ApiAnswer
  | _, [] => []
  | s, .upload d :: es => runAux cfg (s ++ ingest cfg d) es
  | s, .query q :: es => askQuestion cfg s q :: runAux cfg s es

/-- Run the pipeline from the empty vector store. -/
def runPipeline (cfg : PipelineCfg) (evts : List PipelineEvent) :
    List ApiAnswer :=
  runAux cfg [] evts

/-! ### Personas (`docs/DEVELOPMENT.md`, `docs/API.md` ideation endpoint) -/

/-- A persona: a named prompt-engineering preset. -/
structure Persona where
  name : String
  preset : String
  deriving Repr, DecidableEq

/-- The creative personas listed in `docs/DEVELOPMENT.md`. -/
def personas : List Persona :=
  [⟨"aiden", "Strategic Brand Visionary"⟩,
   ⟨"maya", "Creative Innovation Catalyst"⟩,
   ⟨"leo", "Data-Driven Strategist"⟩,
   ⟨"zara", "Disruptive Innovation Expert"⟩]

/-- A generated creative idea, attributed to the persona that produced it. -/
structure Idea where
  title : String
  description : String
  persona : String
  deriving Repr, DecidableEq

/-- A text-only LLM endpoint used for ideation. -/
def TextLLM : Type := String → String

/-- Modelled from the spec: one idea produced by a third-party LLM call
biased by the persona's prompt-engineering preset. -/
def ideaFor (llm : TextLLM) (prompt : String) (p : Persona) : Idea :=
  ⟨llm (p.preset ++ "\n" ++ prompt ++ "\ntitle"),
   llm (p.preset ++ "\n" ++ prompt ++ "\ndescription"),
   p.name⟩

/-- Modelled from the spec: `POST /api/v1/ideation/generate` with
`use_personas` — `count` ideas generated round-robin over the selected
personas, each via an LLM call biased by that persona's preset. -/
def generateIdeas (llm : TextLLM) (selected : List Persona)
    (prompt : String) (count : Nat) : List Idea :=
  (List.range count).filterMap fun i =>
    (selected.get? (i % selected.length)).map (ideaFor llm prompt)

/-! ## Theorems: the `documents` CHECK constraint (C9) -/

/-- Any single statement preserves the (nullable) status invariant. -/
lemma statusCheckPasses_applyDocOp {t : List DocumentRow}
    (ht : ∀ r ∈ t, statusCheckPasses r.status = true) (op : DocOp) :
    ∀ r ∈ applyDocOp t op, statusCheckPasses r.status = true := by
  cases op with
  | ins r =>
    simp only [applyDocOp]
    split
    · intro x hx
      rcases List.mem_append.mp hx with h | h
      · exact ht x h
      · simp only [List.mem_singleton] at h
        subst h
        assumption
    · exact ht
  | setStatus p s =>
    simp only [applyDocOp]
    split
    · intro x hx
      rcases List.mem_map.mp hx with ⟨y, hy, hxy⟩
      subst hxy
      split
      · assumption
      · exact ht y hy
    · exact ht

/-- The invariant propagates through any statement sequence. -/
lemma statusCheckPasses_foldl (ops : List DocOp) :
    ∀ t, (∀ r ∈ t, statusCheckPasses r.status = true) →
      ∀ r ∈ ops.foldl applyDocOp t, statusCheckPasses r.status = true := by
  induction ops with
  | nil => intro t ht; exact ht
  | cons op ops ih =>
    intro t ht
    exact ih (applyDocOp t op) (statusCheckPasses_applyDocOp ht op)

/-- C9 counterexample: the `status` column is nullable and a SQL CHECK
constraint passes when its expression evaluates to NULL, so an INSERT with a
NULL status is accepted — the stored row's status is not equal to any of the
four allowed values, refuting the claim as stated. -/
theorem documents_null_status_counterexample :
    (DocumentRow.mk 1 "brand.pdf" "application/pdf" 10 none)
        ∈ docTable [DocOp.ins ⟨1, "brand.pdf", "application/pdf", 10, none⟩]
    ∧ statusIsOneOfFour
        (DocumentRow.mk 1 "brand.pdf" "application/pdf" 10 none).status
        = false := by
  exact ⟨by decide, by decide⟩

/-- C9 (amended): every row of the `documents` table reachable through the
schema's statements has a status that is either NULL or one of `pending`,
`processing`, `processed`, `failed` (the CHECK constraint under SQL's
NULL-passes semantics), and the non-null status `completed` used as a filter
value in `docs/API.md` still fails the constraint, so it can never be
stored. -/
theorem documents_status_nullable_invariant (ops : List DocOp) :
    (∀ r ∈ docTable ops, statusCheckPasses r.status = true)
    ∧ statusCheckPasses (some "completed") = false := by
  refine ⟨statusCheckPasses_foldl ops [] ?_, by decide⟩
  intro r hr
  simp at hr

/-- A concrete run of `documents_status_nullable_invariant`: after an
allowed insert, an accepted NULL-status insert, a rejected update to
`completed`, and a rejected insert with a bogus status, both stored rows
satisfy the CHECK constraint. -/
theorem documents_status_nullable_invariant_witness :
    (DocumentRow.mk 1 "brand.pdf" "application/pdf" 10 (some "pending"))
        ∈ docTable
          [DocOp.ins ⟨1, "brand.pdf", "application/pdf", 10, some "pending"⟩,
           DocOp.ins ⟨1, "null.pdf", "application/pdf", 3, none⟩,
           DocOp.setStatus (fun r => r.filename == "brand.pdf")
             (some "completed"),
           DocOp.ins ⟨1, "extra.pdf", "application/pdf", 5, some "bogus"⟩]
    ∧ statusCheckPasses
        (DocumentRow.mk 1 "brand.pdf" "application/pdf" 10
          (some "pending")).status = true
    ∧ statusCheckPasses (some "completed") = false := by
  refine ⟨by decide, ?_, ?_⟩
  · exact (documents_status_nullable_invariant
      [DocOp.ins ⟨1, "brand.pdf", "application/pdf", 10, some "pending"⟩,
       DocOp.ins ⟨1, "null.pdf", "application/pdf", 3, none⟩,
       DocOp.setStatus (fun r => r.filename == "brand.pdf")
         (some "completed"),
       DocOp.ins ⟨1, "extra.pdf", "application/pdf", 5, some "bogus"⟩]).1
      _ (by decide)
  · exact (documents_status_nullable_invariant []).2

/-! ## Theorems: row-level security (C8) -/

/-- An RLS SELECT by `u` never returns a row owned by a different user. -/
lemma rlsSelect_no_other {α : Type} (userId : α → Nat) {u v : Nat}
    (huv : u ≠ v) (t : List α) :
    ∀ r ∈ rlsSelect userId u t, userId r ≠ v := by
  intro r hr
  have := List.of_mem_filter hr
  simp only [beq_iff_eq] at this
  omega

/-- An RLS INSERT by `u` leaves the rows owned by a different user
unchanged. -/
lemma rlsInsert_other {α : Type} (userId : α → Nat) {u v : Nat}
    (huv : u ≠ v) (t : List α) (r : α) (t' : List α)
    (h : rlsInsert userId u t r = some t') :
    t'.filter (fun x => userId x == v) = t.filter (fun x => userId x == v) := by
  unfold rlsInsert at h
  split at h
  · cases h
    rename_i hu
    simp only [beq_iff_eq] at hu
    simp [List.filter_append, List.filter_cons, hu, huv]
  · cases h

/-- An RLS UPDATE by `u` leaves the rows owned by a different user
unchanged. -/
lemma rlsUpdate_other {α : Type} (userId : α → Nat) {u v : Nat}
    (huv : u ≠ v) (t : List α) (p : α → Bool) (f : α → α) (t' : List α)
    (h : rlsUpdate userId u t p f = some t') :
    t'.filter (fun x => userId x == v) = t.filter (fun x => userId x == v) := by
  unfold rlsUpdate at h
  split at h
  · cases h
    rename_i hall
    induction t with
    | nil => rfl
    | cons r rs ih =>
      by_cases hc : (userId r == u && p r) = true
      · have hru : userId r = u :=
          beq_iff_eq.mp ((Bool.and_eq_true _ _).mp hc).1
        have hrv : ¬((userId r == v) = true) := by
          rw [hru]
          simp [beq_iff_eq]
          omega
        rw [@List.filter_cons_of_pos _ (fun r => userId r == u && p r) r rs hc,
          List.all_cons, Bool.and_eq_true] at hall
        have hfu : userId (f r) = u := beq_iff_eq.mp hall.1
        have hfv : ¬((userId (f r) == v) = true) := by
          rw [hfu]
          simp [beq_iff_eq]
          omega
        rw [List.map_cons, if_pos hc,
          @List.filter_cons_of_neg _ (fun x => userId x == v) (f r) _ hfv,
          @List.filter_cons_of_neg _ (fun x => userId x == v) r rs hrv]
        exact ih hall.2
      · rw [@List.filter_cons_of_neg _ (fun r => userId r == u && p r) r rs hc]
          at hall
        rw [List.map_cons, if_neg hc, List.filter_cons, List.filter_cons]
        rw [ih hall]
  · cases h

/-- An RLS DELETE by `u` leaves the rows owned by a different user
unchanged. -/
lemma rlsDelete_other {α : Type} (userId : α → Nat) {u v : Nat}
    (huv : u ≠ v) (t : List α) (p : α → Bool) :
    (rlsDelete userId u t p).filter (fun x => userId x == v)
      = t.filter (fun x => userId x == v) := by
  unfold rlsDelete
  induction t with
  | nil => rfl
  | cons r rs ih =>
    by_cases hc : (userId r == u && p r) = true
    · have hru : userId r = u :=
        beq_iff_eq.mp ((Bool.and_eq_true _ _).mp hc).1
      have hrv : ¬((userId r == v) = true) := by
        rw [hru]
        simp [beq_iff_eq]
        omega
      have hneg : ¬((!(userId r == u && p r)) = true) := by
        simp [hc]
      rw [@List.filter_cons_of_neg _ (fun r => !(userId r == u && p r)) r rs
          hneg,
        @List.filter_cons_of_neg _ (fun x => userId x == v) r rs hrv]
      exact ih
    · have hpos : (!(userId r == u && p r)) = true := by
        simp [Bool.eq_false_iff.mpr hc]
      rw [@List.filter_cons_of_pos _ (fun r => !(userId r == u && p r)) r rs
          hpos,
        List.filter_cons, List.filter_cons, ih]

/-- C8: user isolation under the RLS policies of both tables.  For distinct
users `u ≠ v`: a SELECT by `u` reads no row of `v`, and INSERT, UPDATE and
DELETE statements by `u` (when accepted) leave `v`'s rows of both the
`documents` and `chat_sessions` tables exactly as they were. -/
theorem rls_user_isolation (u v : Nat) (huv : u ≠ v)
    (docs : List DocumentRow) (chats : List ChatSessionRow)
    (r : DocumentRow) (c : ChatSessionRow)
    (p : DocumentRow → Bool) (f : DocumentRow → DocumentRow)
    (q : ChatSessionRow → Bool) (g : ChatSessionRow → ChatSessionRow) :
    (∀ x ∈ rlsSelect DocumentRow.user_id u docs, x.user_id ≠ v)
    ∧ (∀ x ∈ rlsSelect ChatSessionRow.user_id u chats, x.user_id ≠ v)
    ∧ (∀ t', rlsInsert DocumentRow.user_id u docs r = some t' →
        t'.filter (fun x => x.user_id == v)
          = docs.filter (fun x => x.user_id == v))
    ∧ (∀ t', rlsInsert ChatSessionRow.user_id u chats c = some t' →
        t'.filter (fun x => x.user_id == v)
          = chats.filter (fun x => x.user_id == v))
    ∧ (∀ t', rlsUpdate DocumentRow.user_id u docs p f = some t' →
        t'.filter (fun x => x.user_id == v)
          = docs.filter (fun x => x.user_id == v))
    ∧ (∀ t', rlsUpdate ChatSessionRow.user_id u chats q g = some t' →
        t'.filter (fun x => x.user_id == v)
          = chats.filter (fun x => x.user_id == v))
    ∧ (rlsDelete DocumentRow.user_id u docs p).filter
        (fun x => x.user_id == v) = docs.filter (fun x => x.user_id == v)
    ∧ (rlsDelete ChatSessionRow.user_id u chats q).filter
        (fun x => x.user_id == v) = chats.filter (fun x => x.user_id == v) :=
  ⟨rlsSelect_no_other _ huv docs,
   rlsSelect_no_other _ huv chats,
   fun _ h => rlsInsert_other _ huv docs r _ h,
   fun _ h => rlsInsert_other _ huv chats c _ h,
   fun _ h => rlsUpdate_other _ huv docs p f _ h,
   fun _ h => rlsUpdate_other _ huv chats q g _ h,
   rlsDelete_other _ huv docs p,
   rlsDelete_other _ huv chats q⟩

/-- Demo `documents` table used for concrete instantiations. -/
def demoDocs : List DocumentRow :=
  [⟨1, "a.pdf", "application/pdf", 5, some "pending"⟩,
   ⟨2, "b.pdf", "application/pdf", 6, some "processed"⟩]

/-- Demo `chat_sessions` table used for concrete instantiations. -/
def demoChats : List ChatSessionRow :=
  [⟨1, 10, "q", "a", 1, 1⟩, ⟨2, 11, "q2", "a2", 0, 2⟩]

/-- A concrete run of `rls_user_isolation` for users 1 and 2 on the demo
tables: user 1's SELECT sees only their own row, and the statements by
user 1 leave user 2's rows untouched. -/
theorem rls_user_isolation_witness :
    (1 : Nat) ≠ 2
    ∧ rlsSelect DocumentRow.user_id 1 demoDocs
        = [⟨1, "a.pdf", "application/pdf", 5, some "pending"⟩]
    ∧ ((∀ x ∈ rlsSelect DocumentRow.user_id 1 demoDocs, x.user_id ≠ 2)
      ∧ (∀ x ∈ rlsSelect ChatSessionRow.user_id 1 demoChats, x.user_id ≠ 2)
      ∧ (∀ t', rlsInsert DocumentRow.user_id 1 demoDocs
            ⟨1, "c.pdf", "application/pdf", 7, some "pending"⟩ = some t' →
          t'.filter (fun x => x.user_id == 2)
            = demoDocs.filter (fun x => x.user_id == 2))
      ∧ (∀ t', rlsInsert ChatSessionRow.user_id 1 demoChats
            ⟨1, 12, "q3", "a3", 0, 0⟩ = some t' →
          t'.filter (fun x => x.user_id == 2)
            = demoChats.filter (fun x => x.user_id == 2))
      ∧ (∀ t', rlsUpdate DocumentRow.user_id 1 demoDocs
            (fun r => r.filename == "a.pdf")
            (fun r => { r with status := some "processed" }) = some t' →
          t'.filter (fun x => x.user_id == 2)
            = demoDocs.filter (fun x => x.user_id == 2))
      ∧ (∀ t', rlsUpdate ChatSessionRow.user_id 1 demoChats
            (fun _ => true) (fun c => { c with sources_count := 0 })
              = some t' →
          t'.filter (fun x => x.user_id == 2)
            = demoChats.filter (fun x => x.user_id == 2))
      ∧ (rlsDelete DocumentRow.user_id 1 demoDocs
            (fun r => r.filename == "a.pdf")).filter
          (fun x => x.user_id == 2)
          = demoDocs.filter (fun x => x.user_id == 2)
      ∧ (rlsDelete ChatSessionRow.user_id 1 demoChats
            (fun _ => true)).filter (fun x => x.user_id == 2)
          = demoChats.filter (fun x => x.user_id == 2)) :=
  ⟨by decide, by decide,
   rls_user_isolation 1 2 (by decide) demoDocs demoChats
     ⟨1, "c.pdf", "application/pdf", 7, some "pending"⟩ ⟨1, 12, "q3", "a3", 0, 0⟩
     (fun r => r.filename == "a.pdf") (fun r => { r with status := some "processed" })
     (fun _ => true) (fun c => { c with sources_count := 0 })⟩

/-! ## Theorems: the upload interface (C5) -/

/-- C5 counterexample: the `UploadPage` drag-and-drop handler performs no
format validation — a plain-text file dropped on the page is kept as a
selected file and (with an API key and a session present) passed on to
upload — and the `FileUpload` dropzone's matcher accepts a `.pdf`-named file
whose MIME type is not the corresponding one, so neither upload interface
enforces the claimed extension-with-corresponding-MIME condition. -/
theorem uploadPage_accepts_txt_counterexample :
    uploadPageHandleDrop [⟨"notes.txt", "text/plain", 10⟩]
        = [⟨"notes.txt", "text/plain", 10⟩]
    ∧ uploadPageHandleUpload true true [⟨"notes.txt", "text/plain", 10⟩]
        = [⟨"notes.txt", "text/plain", 10⟩]
    ∧ claimedPdfPptFormat ⟨"notes.txt", "text/plain", 10⟩ = false
    ∧ dropzoneAccepts false 1 ⟨"odd.pdf", "text/plain", 10⟩ = true
    ∧ claimedPdfPptFormat ⟨"odd.pdf", "text/plain", 10⟩ = false := by
  exact ⟨rfl, by decide, by decide, by decide, by decide⟩

/-- C5 (amended): acceptance by the `FileUpload` dropzone requires — besides
the other configured gates (size within `maxSize`, drop within `maxFiles`,
dropzone not disabled) — that the file's MIME type is one of the three
configured PDF/PowerPoint types or its name ends in `.pdf`, `.pptx` or
`.ppt`; a file matching neither is rejected there.  The `UploadPage`
drag-and-drop handler, by contrast, performs no format validation at all. -/
theorem upload_accept_necessary_conditions (d : Bool) (n : Nat) (f : UFile)
    (l : List UFile) :
    (dropzoneAccepts d n f = true →
      (f.mime ∈ acceptMimes ∨ ∃ e ∈ acceptExts, strEndsWith f.name e = true)
      ∧ f.size ≤ maxSizeCfg ∧ n ≤ maxFilesCfg ∧ d = false)
    ∧ (dropzoneFormatMatch f = false → dropzoneAccepts d n f = false)
    ∧ uploadPageHandleDrop l = l := by
  refine ⟨?_, ?_, rfl⟩
  · intro h
    unfold dropzoneAccepts at h
    rw [Bool.and_eq_true, Bool.and_eq_true, Bool.and_eq_true] at h
    obtain ⟨⟨⟨hd, hn⟩, hmatch⟩, hsize⟩ := h
    refine ⟨?_, of_decide_eq_true hsize, of_decide_eq_true hn, ?_⟩
    · unfold dropzoneFormatMatch at hmatch
      rw [Bool.or_eq_true, List.any_eq_true, List.any_eq_true] at hmatch
      rcases hmatch with ⟨m, hm, he⟩ | ⟨e, he, hs⟩
      · exact Or.inl (beq_iff_eq.mp he ▸ hm)
      · exact Or.inr ⟨e, he, hs⟩
    · cases d
      · rfl
      · simp at hd
  · intro hmatch
    unfold dropzoneAccepts
    rw [hmatch]
    simp

/-- A concrete run of `upload_accept_necessary_conditions`: a 10-byte
well-formed PDF in a one-file drop on an enabled dropzone is accepted, and
the necessary conditions follow; dropping a text file on the `UploadPage`
keeps it unchanged. -/
theorem upload_accept_necessary_conditions_witness :
    dropzoneAccepts false 1 ⟨"brand.pdf", "application/pdf", 10⟩ = true
    ∧ ((UFile.mk "brand.pdf" "application/pdf" 10).mime ∈ acceptMimes
        ∨ ∃ e ∈ acceptExts,
            strEndsWith (UFile.mk "brand.pdf" "application/pdf" 10).name e
              = true)
    ∧ (UFile.mk "brand.pdf" "application/pdf" 10).size ≤ maxSizeCfg
    ∧ (1 : Nat) ≤ maxFilesCfg
    ∧ uploadPageHandleDrop [UFile.mk "x.txt" "text/plain" 1]
        = [UFile.mk "x.txt" "text/plain" 1] := by
  have h : dropzoneAccepts false 1 ⟨"brand.pdf", "application/pdf", 10⟩
      = true := by decide
  have hthm := upload_accept_necessary_conditions false 1
    ⟨"brand.pdf", "application/pdf", 10⟩ [UFile.mk "x.txt" "text/plain" 1]
  exact ⟨h, (hthm.1 h).1, (hthm.1 h).2.1, (hthm.1 h).2.2.1, hthm.2.2⟩

/-! ## Theorems: `formatFileSize` (C10) -/

/-- The fuelled base-1024 logarithm agrees with `Nat.log 1024` whenever the
fuel dominates the argument. -/
lemma sizeIndexAux_eq_log : ∀ fuel n, n ≤ fuel →
    sizeIndexAux fuel n = Nat.log 1024 n := by
  intro fuel
  induction fuel with
  | zero =>
    intro n hn
    have : n = 0 := Nat.le_zero.mp hn
    subst this
    simp [sizeIndexAux, Nat.log_zero_right]
  | succ fuel ih =>
    intro n hn
    unfold sizeIndexAux
    split
    · rename_i hlt
      rw [Nat.log_of_lt hlt]
    · rename_i hge
      have h1024 : 1024 ≤ n := Nat.le_of_not_lt hge
      have hpos : 0 < n := lt_of_lt_of_le (by norm_num) h1024
      have hdiv : n / 1024 < n := Nat.div_lt_self hpos (by norm_num)
      rw [ih (n / 1024) (by omega),
        Nat.log_of_one_lt_of_le (by norm_num) h1024]

/-- The index `sizeIndex` computes the exact base-1024 logarithm. -/
lemma sizeIndex_eq_log (b : Nat) : sizeIndex b = Nat.log 1024 b :=
  sizeIndexAux_eq_log b b le_rfl

/-- C10: `formatFileSize 0 = "0 Bytes"`; for every byte count `b` with
`1 ≤ b < 1024 ^ 4` the result is a value together with a unit drawn from
`['Bytes', 'KB', 'MB', 'GB']`; and for `b ≥ 1024 ^ 4` the computed index
runs past the `sizes` array (the JavaScript `undefined` access, modelled as
`none`). -/
theorem formatFileSize_bounds :
    formatFileSize 0 = some ⟨0, "Bytes"⟩
    ∧ (∀ b, 1 ≤ b → b < 1024 ^ 4 →
        ∃ fs, formatFileSize b = some fs ∧ fs.unit ∈ sizes)
    ∧ (∀ b, 1024 ^ 4 ≤ b →
        4 ≤ sizeIndex b ∧ formatFileSize b = none) := by
  refine ⟨rfl, ?_, ?_⟩
  · intro b hb1 hb2
    have hlog : sizeIndex b < 4 := by
      rw [sizeIndex_eq_log]
      exact (Nat.lt_pow_iff_log_lt (by norm_num) (by omega)).mp hb2
    have hlen : sizeIndex b < sizes.length := by
      simpa [sizes] using hlog
    refine ⟨⟨(b : ℚ) / (1024 : ℚ) ^ sizeIndex b, sizes.get ⟨_, hlen⟩⟩, ?_, ?_⟩
    · unfold formatFileSize
      rw [if_neg (by omega), List.get?_eq_get hlen, Option.map_some']
    · exact List.get_mem sizes _ hlen
  · intro b hb
    have hlog : 4 ≤ sizeIndex b := by
      rw [sizeIndex_eq_log]
      exact (Nat.pow_le_iff_le_log (by norm_num)
        (Nat.pos_iff_ne_zero.mp (lt_of_lt_of_le (by norm_num) hb))).mp hb
    refine ⟨hlog, ?_⟩
    unfold formatFileSize
    rw [if_neg (Nat.pos_iff_ne_zero.mp (lt_of_lt_of_le (by norm_num) hb)),
      List.get?_eq_none.mpr (by simpa [sizes] using hlog), Option.map_none']

/-- A concrete run of `formatFileSize_bounds`: 2048 bytes get a listed unit
(index 1, `KB`), while `1024 ^ 4` bytes drive the index past the array. -/
theorem formatFileSize_bounds_witness :
    formatFileSize 0 = some ⟨0, "Bytes"⟩
    ∧ sizeIndex 2048 = 1
    ∧ (∃ fs, formatFileSize 2048 = some fs ∧ fs.unit ∈ sizes)
    ∧ sizeIndex (1024 ^ 4) = 4
    ∧ formatFileSize (1024 ^ 4) = none :=
  ⟨formatFileSize_bounds.1, by decide,
   formatFileSize_bounds.2.1 2048 (by decide) (by decide),
   by decide,
   (formatFileSize_bounds.2.2 (1024 ^ 4) (by decide)).2⟩

/-! ## Theorems: DocumentProcessor (C6) -/

/-- Every passage emitted by `extractPages` carries the document id and a
page index pointing at exactly the page text it was extracted from. -/
lemma mem_extractPages (docId : Nat) :
    ∀ (ts : List String) (i : Nat), ∀ x ∈ extractPages docId i ts,
      x.docId = docId ∧ i ≤ x.page ∧ ts.get? (x.page - i) = some x.text := by
  intro ts
  induction ts with
  | nil => intro i x hx; simp [extractPages] at hx
  | cons t ts ih =>
    intro i x hx
    rcases List.mem_cons.mp hx with h | h
    · subst h
      refine ⟨rfl, le_rfl, ?_⟩
      simp
    · obtain ⟨h1, h2, h3⟩ := ih (i + 1) x h
      refine ⟨h1, by omega, ?_⟩
      have : x.page - i = (x.page - (i + 1)) + 1 := by omega
      rw [this, List.get?_cons_succ]
      exact h3

/-- The helper `extractPages` emits one passage per page. -/
lemma length_extractPages (docId : Nat) :
    ∀ (ts : List String) (i : Nat),
      (extractPages docId i ts).length = ts.length := by
  intro ts
  induction ts with
  | nil => intro i; rfl
  | cons t ts ih => intro i; simp [extractPages, ih]

/-- C6: `DocumentProcessor` extracts one passage per page/slide, and every
extracted passage is attributed to the originating document and to the
page/slide whose text it carries. -/
theorem documentProcessor_attribution (d : SourceDoc) :
    (∀ p ∈ processDocument d,
        p.docId = d.docId ∧ d.pages.get? p.page = some p.text)
    ∧ (processDocument d).length = d.pages.length := by
  constructor
  · intro p hp
    obtain ⟨h1, _, h3⟩ := mem_extractPages d.docId d.pages 0 p hp
    exact ⟨h1, by simpa using h3⟩
  · exact length_extractPages d.docId d.pages 0

/-- A concrete run of `documentProcessor_attribution`: the second passage of
a two-page document points back at page 1. -/
theorem documentProcessor_attribution_witness :
    (Passage.mk 7 1 "slide two") ∈ processDocument ⟨7, ["slide one", "slide two"]⟩
    ∧ (Passage.mk 7 1 "slide two").docId = (7 : Nat)
    ∧ (["slide one", "slide two"] : List String).get? 1 = some "slide two" :=
  ⟨by decide,
   ((documentProcessor_attribution ⟨7, ["slide one", "slide two"]⟩).1
      ⟨7, 1, "slide two"⟩ (by decide)).1,
   ((documentProcessor_attribution ⟨7, ["slide one", "slide two"]⟩).1
      ⟨7, 1, "slide two"⟩ (by decide)).2⟩

/-! ## Theorems: TextChunker (C2) -/

/-- Every chunk produced by `chunkAux` is the window of `size` tokens at its
start position, which lies inside the token stream. -/
lemma mem_chunkAux (toks : List String) (size stride : Nat) :
    ∀ (fuel start : Nat), ∀ c ∈ chunkAux toks size stride fuel start,
      start ≤ c.start ∧ c.start < toks.length
        ∧ c.toks = (toks.drop c.start).take size := by
  intro fuel
  induction fuel with
  | zero => intro start c hc; simp [chunkAux] at hc
  | succ fuel ih =>
    intro start c hc
    unfold chunkAux at hc
    split at hc
    · rcases List.mem_cons.mp hc with h | h
      · subst h
        exact ⟨le_rfl, by assumption, rfl⟩
      · obtain ⟨h1, h2, h3⟩ := ih (start + stride) c h
        exact ⟨by omega, h2, h3⟩
    · simp at hc

/-- The `i`-th chunk produced by `chunkAux` starts at `start + i * stride`. -/
lemma chunkAux_get_start (toks : List String) (size stride : Nat) :
    ∀ (fuel start i : Nat) (c : Chunk),
      (chunkAux toks size stride fuel start).get? i = some c →
      c.start = start + i * stride := by
  intro fuel
  induction fuel with
  | zero => intro start i c hc; simp [chunkAux] at hc
  | succ fuel ih =>
    intro start i c hc
    unfold chunkAux at hc
    split at hc
    · match i with
      | 0 =>
        rw [List.get?_cons_zero] at hc
        cases hc
        simp
      | i + 1 =>
        rw [List.get?_cons_succ] at hc
        have := ih (start + stride) i c hc
        rw [this]
        ring
    · simp at hc

/-- C2: under the configured bounds `0 < overlap < size`, every chunk is a
non-empty window of at most `size` tokens of the text, and every pair of
consecutive chunks overlaps: the second chunk starts strictly inside the
token range covered by the first. -/
theorem textChunker_bounded_overlapping (toks : List String)
    (size overlap : Nat) (h0 : 0 < overlap) (hlt : overlap < size) :
    (∀ c ∈ chunkText toks size overlap,
        0 < c.toks.length ∧ c.toks.length ≤ size
          ∧ c.toks = (toks.drop c.start).take size)
    ∧ ∀ i (c c' : Chunk), (chunkText toks size overlap).get? i = some c →
        (chunkText toks size overlap).get? (i + 1) = some c' →
        c.start < c'.start ∧ c'.start < c.start + c.toks.length := by
  constructor
  · intro c hc
    obtain ⟨_, h2, h3⟩ :=
      mem_chunkAux toks size (size - overlap) toks.length 0 c hc
    have hlen : c.toks.length = min size (toks.length - c.start) := by
      rw [h3, List.length_take, List.length_drop]
    refine ⟨by omega, by omega, h3⟩
  · intro i c c' hc hc'
    have hs : c.start = 0 + i * (size - overlap) :=
      chunkAux_get_start toks size (size - overlap) toks.length 0 i c hc
    have hs' : c'.start = 0 + (i + 1) * (size - overlap) :=
      chunkAux_get_start toks size (size - overlap) toks.length 0 (i + 1) c' hc'
    obtain ⟨_, hlt', htoks⟩ :=
      mem_chunkAux toks size (size - overlap) toks.length 0 c'
        (List.get?_mem hc')
    obtain ⟨_, _, htoks0⟩ :=
      mem_chunkAux toks size (size - overlap) toks.length 0 c
        (List.get?_mem hc)
    have hlen : c.toks.length = min size (toks.length - c.start) := by
      rw [htoks0, List.length_take, List.length_drop]
    have hmul : (i + 1) * (size - overlap) = i * (size - overlap) + (size - overlap) := by
      ring
    omega

/-- A concrete run of `textChunker_bounded_overlapping`: chunking five tokens
with `size = 3`, `overlap = 1` yields consecutive chunks `[a, b, c]` at 0 and
`[c, d, e]` at 2, which share the token `c`. -/
theorem textChunker_bounded_overlapping_witness :
    (chunkText ["a", "b", "c", "d", "e"] 3 1).get? 0
        = some ⟨0, ["a", "b", "c"]⟩
    ∧ (chunkText ["a", "b", "c", "d", "e"] 3 1).get? 1
        = some ⟨2, ["c", "d", "e"]⟩
    ∧ (Chunk.mk 0 ["a", "b", "c"]).start < (Chunk.mk 2 ["c", "d", "e"]).start
    ∧ (Chunk.mk 2 ["c", "d", "e"]).start
        < (Chunk.mk 0 ["a", "b", "c"]).start
            + (Chunk.mk 0 ["a", "b", "c"]).toks.length :=
  ⟨by decide, by decide,
   ((textChunker_bounded_overlapping ["a", "b", "c", "d", "e"] 3 1
        (by decide) (by decide)).2 0 ⟨0, ["a", "b", "c"]⟩
        ⟨2, ["c", "d", "e"]⟩ (by decide) (by decide)).1,
   ((textChunker_bounded_overlapping ["a", "b", "c", "d", "e"] 3 1
        (by decide) (by decide)).2 0 ⟨0, ["a", "b", "c"]⟩
        ⟨2, ["c", "d", "e"]⟩ (by decide) (by decide)).2⟩

/-! ## Theorems: VectorDatabase (C3) -/

/-- C3: nearest-neighbor retrieval.  The search result is a sub-multiset of
the store of size `min k |store|`, and — splitting the store into the
returned chunks and the rest — every returned chunk is at least as similar
to the query embedding as every chunk left behind. -/
theorem vectorDatabase_nearest_neighbors (store : List StoredChunk)
    (q : List ℤ) (k : Nat) :
    ∃ rest, store.Perm (similaritySearch store q k ++ rest)
      ∧ (similaritySearch store q k).length = min k store.length
      ∧ ∀ x ∈ similaritySearch store q k, ∀ y ∈ rest,
          dot q y.emb ≤ dot q x.emb := by
  haveI hTotal : IsTotal StoredChunk
      (fun a b => dot q b.emb ≤ dot q a.emb) :=
    ⟨fun a b => le_total _ _⟩
  haveI hTrans : IsTrans StoredChunk
      (fun a b => dot q b.emb ≤ dot q a.emb) :=
    ⟨fun _ _ _ hab hbc => le_trans hbc hab⟩
  refine ⟨(List.insertionSort (fun a b => dot q b.emb ≤ dot q a.emb)
      store).drop k, ?_, ?_, ?_⟩
  · have hperm :=
      (List.perm_insertionSort (fun a b => dot q b.emb ≤ dot q a.emb)
        store).symm
    unfold similaritySearch
    rwa [List.take_append_drop]
  · have hlen :=
      (List.perm_insertionSort (fun a b => dot q b.emb ≤ dot q a.emb)
        store).length_eq
    unfold similaritySearch
    rw [List.length_take, hlen]
  · have hsorted :=
      List.sorted_insertionSort (fun a b => dot q b.emb ≤ dot q a.emb) store
    rw [List.Sorted, ← List.take_append_drop k
      (List.insertionSort (fun a b => dot q b.emb ≤ dot q a.emb) store),
      List.pairwise_append] at hsorted
    exact fun x hx y hy => hsorted.2.2 x hx y hy

/-- A concrete run of `vectorDatabase_nearest_neighbors`: among three stored
chunks, the top-2 for the query embedding `[3, 1]` are the two with the
highest dot products, and both beat the remaining chunk. -/
theorem vectorDatabase_nearest_neighbors_witness :
    similaritySearch
        [⟨1, 0, ⟨0, ["x"]⟩, [1, 0]⟩, ⟨1, 0, ⟨0, ["y"]⟩, [0, 1]⟩,
         ⟨1, 0, ⟨0, ["z"]⟩, [2, 2]⟩] [3, 1] 2
      = [⟨1, 0, ⟨0, ["z"]⟩, [2, 2]⟩, ⟨1, 0, ⟨0, ["x"]⟩, [1, 0]⟩]
    ∧ ∃ rest,
        ([⟨1, 0, ⟨0, ["x"]⟩, [1, 0]⟩, ⟨1, 0, ⟨0, ["y"]⟩, [0, 1]⟩,
          ⟨1, 0, ⟨0, ["z"]⟩, [2, 2]⟩] : List StoredChunk).Perm
          (similaritySearch
            [⟨1, 0, ⟨0, ["x"]⟩, [1, 0]⟩, ⟨1, 0, ⟨0, ["y"]⟩, [0, 1]⟩,
             ⟨1, 0, ⟨0, ["z"]⟩, [2, 2]⟩] [3, 1] 2 ++ rest)
        ∧ (similaritySearch
            [⟨1, 0, ⟨0, ["x"]⟩, [1, 0]⟩, ⟨1, 0, ⟨0, ["y"]⟩, [0, 1]⟩,
             ⟨1, 0, ⟨0, ["z"]⟩, [2, 2]⟩] [3, 1] 2).length
          = min 2 ([⟨1, 0, ⟨0, ["x"]⟩, [1, 0]⟩, ⟨1, 0, ⟨0, ["y"]⟩, [0, 1]⟩,
             ⟨1, 0, ⟨0, ["z"]⟩, [2, 2]⟩] : List StoredChunk).length
        ∧ ∀ x ∈ similaritySearch
            [⟨1, 0, ⟨0, ["x"]⟩, [1, 0]⟩, ⟨1, 0, ⟨0, ["y"]⟩, [0, 1]⟩,
             ⟨1, 0, ⟨0, ["z"]⟩, [2, 2]⟩] [3, 1] 2, ∀ y ∈ rest,
            dot [3, 1] y.emb ≤ dot [3, 1] x.emb :=
  ⟨by decide,
   vectorDatabase_nearest_neighbors
     [⟨1, 0, ⟨0, ["x"]⟩, [1, 0]⟩, ⟨1, 0, ⟨0, ["y"]⟩, [0, 1]⟩,
      ⟨1, 0, ⟨0, ["z"]⟩, [2, 2]⟩] [3, 1] 2⟩

/-! ## Theorems: AIResponseGenerator and the API response (C1) -/

/-- C1: the API response built for an answered question carries the
question, the LLM's answer to the prompt composed from the retrieved
chunks, the numeric confidence estimate, and exactly the source chunks the
answer was produced from. -/
theorem apiResponse_has_answer_confidence_sources (cfg : PipelineCfg)
    (store : List StoredChunk) (question : String) :
    (askQuestion cfg store question).question = question
    ∧ (askQuestion cfg store question).answer
        = (cfg.llm (composePrompt question
            (similaritySearch store (cfg.embed question) cfg.topK))).1
    ∧ (askQuestion cfg store question).confidence
        = (cfg.llm (composePrompt question
            (similaritySearch store (cfg.embed question) cfg.topK))).2
    ∧ (askQuestion cfg store question).sources
        = similaritySearch store (cfg.embed question) cfg.topK :=
  ⟨rfl, rfl, rfl, rfl⟩

/-- A concrete run of `apiResponse_has_answer_confidence_sources` on an
empty store with a stub LLM. -/
theorem apiResponse_has_answer_confidence_sources_witness :
    (askQuestion ⟨fun _ => ("the answer", 9 / 10), fun _ => [1], 3, 1, 2⟩
        [] "What are the brand colors?").question
        = "What are the brand colors?"
    ∧ (askQuestion ⟨fun _ => ("the answer", 9 / 10), fun _ => [1], 3, 1, 2⟩
        [] "What are the brand colors?").answer = "the answer"
    ∧ (askQuestion ⟨fun _ => ("the answer", 9 / 10), fun _ => [1], 3, 1, 2⟩
        [] "What are the brand colors?").confidence = 9 / 10
    ∧ (askQuestion ⟨fun _ => ("the answer", 9 / 10), fun _ => [1], 3, 1, 2⟩
        [] "What are the brand colors?").sources = [] :=
  apiResponse_has_answer_confidence_sources
    ⟨fun _ => ("the answer", 9 / 10), fun _ => [1], 3, 1, 2⟩
    [] "What are the brand colors?"

/-! ## Theorems: pipeline ordering (C4) -/

/-- The list `insertedChunks` distributes over trace concatenation. -/
lemma insertedChunks_append (cfg : PipelineCfg)
    (xs ys : List PipelineEvent) :
    insertedChunks cfg (xs ++ ys)
      = insertedChunks cfg xs ++ insertedChunks cfg ys := by
  unfold insertedChunks
  rw [List.flatMap_append]

/-- Running a concatenated trace: the second half runs from the store
extended by exactly the chunks the first half inserted. -/
lemma runAux_append (cfg : PipelineCfg) :
    ∀ (xs : List PipelineEvent) (s : List StoredChunk)
      (ys : List PipelineEvent),
      runAux cfg s (xs ++ ys)
        = runAux cfg s xs ++ runAux cfg (s ++ insertedChunks cfg xs) ys := by
  intro xs
  induction xs with
  | nil =>
    intro s ys
    simp [runAux, insertedChunks]
  | cons e xs ih =>
    intro s ys
    cases e with
    | upload d =>
      rw [List.cons_append]
      show runAux cfg (s ++ ingest cfg d) (xs ++ ys) = _
      rw [ih (s ++ ingest cfg d) ys]
      have : insertedChunks cfg (PipelineEvent.upload d :: xs)
          = ingest cfg d ++ insertedChunks cfg xs := rfl
      rw [this, ← List.append_assoc]
      rfl
    | query q =>
      rw [List.cons_append]
      show askQuestion cfg s q :: runAux cfg s (xs ++ ys) = _
      rw [ih s ys]
      have : insertedChunks cfg (PipelineEvent.query q :: xs)
          = insertedChunks cfg xs := rfl
      rw [this]
      rfl

/-- Everything the similarity search returns is in the store. -/
lemma mem_of_mem_similaritySearch (store : List StoredChunk) (q : List ℤ)
    (k : Nat) : ∀ x ∈ similaritySearch store q k, x ∈ store := by
  intro x hx
  unfold similaritySearch at hx
  exact (List.perm_insertionSort
      (fun a b => dot q b.emb ≤ dot q a.emb) store).mem_iff.mp
    (List.mem_of_mem_take hx)

/-- C4: pipeline ordering.  In any event trace, the query occurring after
the prefix `pre` is answered from the store holding exactly the chunks that
the uploads of `pre` inserted (each having gone through DocumentProcessor,
TextChunker and embedding inside `ingest`); in particular every source chunk
of its response was inserted by an earlier upload. -/
theorem pipeline_retrieves_only_inserted (cfg : PipelineCfg)
    (evts pre post : List PipelineEvent) (q : String)
    (h : evts = pre ++ PipelineEvent.query q :: post) :
    ∃ resp, resp ∈ runPipeline cfg evts
      ∧ resp = askQuestion cfg (insertedChunks cfg pre) q
      ∧ resp.question = q
      ∧ ∀ c ∈ resp.sources, c ∈ insertedChunks cfg pre := by
  subst h
  unfold runPipeline
  rw [runAux_append cfg pre [] (PipelineEvent.query q :: post)]
  refine ⟨askQuestion cfg ([] ++ insertedChunks cfg pre) q, ?_, by rw [List.nil_append], ?_, ?_⟩
  · apply List.mem_append_right
    show _ ∈ askQuestion cfg ([] ++ insertedChunks cfg pre) q :: _
    exact List.mem_cons_self _ _
  · rfl
  · intro c hc
    exact mem_of_mem_similaritySearch (insertedChunks cfg pre)
      (cfg.embed q) cfg.topK c hc

/-- A concrete run of `pipeline_retrieves_only_inserted`: a trace with one
upload followed by one query. -/
theorem pipeline_retrieves_only_inserted_witness :
    ∃ resp, resp ∈ runPipeline ⟨fun _ => ("ans", 1), fun _ => [1], 3, 1, 2⟩
        [PipelineEvent.upload ⟨1, ["hello world"]⟩, PipelineEvent.query "Q"]
      ∧ resp = askQuestion ⟨fun _ => ("ans", 1), fun _ => [1], 3, 1, 2⟩
          (insertedChunks ⟨fun _ => ("ans", 1), fun _ => [1], 3, 1, 2⟩
            [PipelineEvent.upload ⟨1, ["hello world"]⟩]) "Q"
      ∧ resp.question = "Q"
      ∧ ∀ c ∈ resp.sources,
          c ∈ insertedChunks ⟨fun _ => ("ans", 1), fun _ => [1], 3, 1, 2⟩
            [PipelineEvent.upload ⟨1, ["hello world"]⟩] :=
  pipeline_retrieves_only_inserted
    ⟨fun _ => ("ans", 1), fun _ => [1], 3, 1, 2⟩
    [PipelineEvent.upload ⟨1, ["hello world"]⟩, PipelineEvent.query "Q"]
    [PipelineEvent.upload ⟨1, ["hello world"]⟩] [] "Q" rfl

/-! ## Theorems: persona ideation (C7) -/

/-- C7: every idea generated for a persona-selecting ideation request is
attributed to one of the selected personas and is exactly the output of the
LLM call biased by that persona's preset. -/
theorem ideation_persona_attribution (llm : TextLLM)
    (selected : List Persona) (prompt : String) (count : Nat) :
    ∀ idea ∈ generateIdeas llm selected prompt count,
      ∃ p ∈ selected, idea.persona = p.name ∧ idea = ideaFor llm prompt p := by
  intro idea hidea
  unfold generateIdeas at hidea
  rcases List.mem_filterMap.mp hidea with ⟨i, _, hmap⟩
  rcases Option.map_eq_some'.mp hmap with ⟨p, hp, hid⟩
  refine ⟨p, List.get?_mem hp, ?_, hid.symm⟩
  rw [← hid]
  rfl

/-- A concrete run of `ideation_persona_attribution`: with one selected
persona and `count = 1`, the generated idea is attributed to it. -/
theorem ideation_persona_attribution_witness :
    ideaFor (fun s => s) "P" ⟨"aiden", "Strategic Brand Visionary"⟩
        ∈ generateIdeas (fun s => s)
            [⟨"aiden", "Strategic Brand Visionary"⟩] "P" 1
    ∧ ∃ p ∈ [Persona.mk "aiden" "Strategic Brand Visionary"],
        (ideaFor (fun s => s) "P"
            ⟨"aiden", "Strategic Brand Visionary"⟩).persona = p.name
        ∧ ideaFor (fun s => s) "P" ⟨"aiden", "Strategic Brand Visionary"⟩
            = ideaFor (fun s => s) "P" p := by
  have hmem : ideaFor (fun s => s) "P" ⟨"aiden", "Strategic Brand Visionary"⟩
      ∈ generateIdeas (fun s => s)
          [⟨"aiden", "Strategic Brand Visionary"⟩] "P" 1 := by
    show _ ∈ [ideaFor (fun s => s) "P" ⟨"aiden", "Strategic Brand Visionary"⟩]
    exact List.mem_singleton.mpr rfl
  exact ⟨hmem, ideation_persona_attribution (fun s => s)
    [⟨"aiden", "Strategic Brand Visionary"⟩] "P" 1 _ hmem⟩

end PlaybookWiz
